import Mathlib

/-!
Shallow embedding of `cmd/ipsw/cmd/idev/idev_img_sign.go` (the `idev img sign`
subcommand, `idevImgSignCmd.RunE`), together with theorems checking the
specification's claims about it.

External collaborators (filesystem, disk-image mounter, plist parser, TSS
signing service) are modelled as an oracle environment `Env`; the command body
is the function `runE`, which returns the list of observable side effects it
performed together with its result (`Except Err Unit`, mirroring the Go
`error` return).  Go error values built with `fmt.Errorf` are modelled by the
structured type `Err`; `Err.message` renders exactly the format strings used
in the source.
-/

namespace ImgSign

/-- A single apostrophe character, used in several of the source's error
format strings. -/
def squote : String := (Char.ofNat 39).toString

/-- Opaque parsed build manifest: the command never inspects its fields, it
only passes the value from `plist.ParseBuildManifest` to `tss.Personalize`. -/
structure BuildManifest where
  token : Nat
deriving DecidableEq

/-- A value stored in the `PersonlID` map (Go `map[string]any`): the source
stores the three identity fields as unsigned integers, but the map type would
also admit strings, so both are representable. -/
inductive PValue where
  | num (n : Nat)
  | str (s : String)
deriving DecidableEq

/-- Embedding of `tss.PersonalConfig` as populated by this command. -/
structure PersonalConfig where
  proxy : String
  insecure : Bool
  personlID : List (String × PValue)
  buildManifest : BuildManifest
  nonce : String
deriving DecidableEq

/-- The command's flag values after `viper` resolution (`idev.img.sign.*`). -/
structure Flags where
  xcode : String
  manifest : String
  boardID : Nat
  chipID : Nat
  ecid : Nat
  nonce : String
  proxy : String
  insecure : Bool
  output : String
deriving DecidableEq

/-- The flag defaults registered in `init`: `--xcode` defaults to
`/Applications/Xcode.app`, every other flag to its zero value. -/
def defaultFlags : Flags :=
  { xcode := "/Applications/Xcode.app", manifest := "", boardID := 0, chipID := 0,
    ecid := 0, nonce := "", proxy := "", insecure := false, output := "" }

/-- Structured model of the `error` values the command returns
(one constructor per `fmt.Errorf` site in `RunE`). -/
inductive Err where
  | both
  | neither
  | identity
  | notFound (xcode : String)
  | mountFailed (cause : String)
  | readManifest (cause : String)
  | parseManifest (cause : String)
  | personalizeFailed (cause : String)
  | mkdirFailed (dir : String) (cause : String)
  | writeFailed (output : String) (cause : String)
deriving DecidableEq

/-- The user-facing message of each error, rendering exactly the
`fmt.Errorf` format strings of the source (`%w` causes are appended after
`: `, as `fmt` does for string-rendered wrapped errors). -/
def Err.message : Err → String
  | .both => "cannot specify both --xcode and --manifest"
  | .neither => "must specify either --xcode or --manifest"
  | .identity => "must specify --board-id, --chip-id, --ecid AND --nonce"
  | .notFound xcode =>
      "failed to find iOS_DDI.dmg in " ++ squote ++ xcode ++ squote ++
        " (install NEW XCode.app or Xcode-beta.app)"
  | .mountFailed c => "failed to mount iOS_DDI.dmg: " ++ c
  | .readManifest c => "failed to read BuildManifest.plist: " ++ c
  | .parseManifest c => "failed to parse BuildManifest.plist: " ++ c
  | .personalizeFailed c => "failed to personalize DDI: " ++ c
  | .mkdirFailed dir c =>
      "failed to create output folder " ++ squote ++ dir ++ squote ++ ": " ++ c
  | .writeFailed output c => "failed to write signature to " ++ output ++ ": " ++ c

/-- Observable side effects of one invocation, in program order. -/
inductive Effect where
  | stat (path : String)
  | mount (path : String)
  | unmountCall (mountPoint : String) (force : Bool)
  | sleep (seconds : Nat)
  | readFile (path : String)
  | personalizeCall (cfg : PersonalConfig)
  | mkdirAll (path : String)
  | writeFile (path : String)
  | logInfo (msg : String)
  | logDebug (msg : String)
  | logError (msg : String)
deriving DecidableEq

/-- Oracle environment: the outcome each external collaborator would return
for a given request.  `unmount` additionally takes the retry-attempt index, so
that transient failures across the bounded retry can be modelled. -/
structure Env where
  statNotExist : String → Bool
  mountDMG : String → Except String (String × Bool)
  unmount : String → Bool → Nat → Except String Unit
  readFile : String → Except String (List Nat)
  parseBuildManifest : List Nat → Except String BuildManifest
  personalize : PersonalConfig → Except String (List Nat)
  mkdirAll : String → Except String Unit
  writeFile : String → List Nat → Except String Unit

/-- Does the string begin with the path separator? -/
def startsWithSep (s : String) : Bool :=
  match s.data with
  | [] => false
  | c :: _ => c == (Char.ofNat 47)

/-- Model of `filepath.Join` for the shapes used in this command: the second
component is appended with a single separator (`filepath.Clean`
normalisation beyond this is not needed by any call site here). -/
def pathJoin (a b : String) : String :=
  if a = "" then b
  else if startsWithSep b then a ++ b
  else a ++ "/" ++ b

/-- The fixed disk-image location under the Xcode root
(`Contents/Resources/CoreDeviceDDIs/iOS_DDI.dmg`). -/
def dmgRelPath : String := "/Contents/Resources/CoreDeviceDDIs/iOS_DDI.dmg"

/-- The output filename: `fmt.Sprintf("%d.%d.%d.%s", boardID, chipID, ecid,
"personalized.signature")` with `%d` rendering decimal. -/
def sigFileName (boardID chipID ecid : Nat) : String :=
  Nat.repr boardID ++ "." ++ Nat.repr chipID ++ "." ++ Nat.repr ecid ++ "." ++
    "personalized.signature"

/-- Construction of the `tss.PersonalConfig` literal passed to
`tss.Personalize`: proxy/insecure from flags, the three-entry `PersonlID`
map with the identity fields as unsigned integers, the parsed manifest and
the nonce.  A total function: building the request has no failure path. -/
def buildPersonalConfig (flags : Flags) (bm : BuildManifest) : PersonalConfig :=
  { proxy := flags.proxy
    insecure := flags.insecure
    personlID := [("BoardId", PValue.num flags.boardID),
                  ("ChipID", PValue.num flags.chipID),
                  ("UniqueChipID", PValue.num flags.ecid)]
    buildManifest := bm
    nonce := flags.nonce }

/-- Modelled from the spec: `utils.Retry` is code of this repository that is
not under `src/` (only its call site is).  Per the spec, the operation is
attempted up to the given number of times with a fixed delay between
consecutive attempts, stopping at the first success and otherwise returning
the last failure.  `op` returns the effects of one attempt plus its outcome
and receives the attempt index; the bound of `0` attempts is never used by
the call site (the source passes `3`). -/
def Retry : Nat → Nat → (Nat → List Effect × Except String Unit) → Nat →
    List Effect × Except String Unit
  | 0, _, _, _ => ([], Except.error "retry: no attempts")
  | n + 1, delaySec, op, i =>
    match op i with
    | (tr, Except.ok u) => (tr, Except.ok u)
    | (tr, Except.error e) =>
      match n with
      | 0 => (tr, Except.error e)
      | m + 1 =>
        (tr ++ Effect.sleep delaySec :: (Retry (m + 1) delaySec op (i + 1)).1,
         (Retry (m + 1) delaySec op (i + 1)).2)

/-- One unmount attempt: `utils.Unmount(mountPoint, false)`. -/
def unmountOnce (env : Env) (mountPoint : String) (i : Nat) :
    List Effect × Except String Unit :=
  ([Effect.unmountCall mountPoint false], env.unmount mountPoint false i)

/-- The deferred release block registered after a mount this invocation
created: `utils.Retry(3, 2*time.Second, func() { utils.Unmount(mountPoint,
false) })`, logging (never returning) a residual failure.  It contributes
only effects: the surrounding function's result is untouched. -/
def releaseMount (env : Env) (dmgPath mountPoint : String) : List Effect :=
  match Retry 3 2 (unmountOnce env mountPoint) 0 with
  | (tr, Except.ok _) => Effect.logDebug ("Unmounting " ++ dmgPath) :: tr
  | (tr, Except.error e) =>
      Effect.logDebug ("Unmounting " ++ dmgPath) ::
        tr ++ [Effect.logError ("failed to unmount " ++ dmgPath ++ " at " ++
          mountPoint ++ ": " ++ e)]

/-- The phase after writing is reached: compute the filename, create the
output folder when one was given (nesting the file under it), write the
signature bytes. -/
def writePhase (env : Env) (flags : Flags) (sigData : List Nat) :
    List Effect × Except Err Unit :=
  if flags.output ≠ "" then
    match env.mkdirAll flags.output with
    | Except.error e =>
        ([Effect.mkdirAll flags.output],
         Except.error (Err.mkdirFailed flags.output e))
    | Except.ok _ =>
      match env.writeFile (pathJoin flags.output
          (sigFileName flags.boardID flags.chipID flags.ecid)) sigData with
      | Except.error e =>
          ([Effect.mkdirAll flags.output,
            Effect.logInfo ("Writing signature to " ++ pathJoin flags.output
              (sigFileName flags.boardID flags.chipID flags.ecid)),
            Effect.writeFile (pathJoin flags.output
              (sigFileName flags.boardID flags.chipID flags.ecid))],
           Except.error (Err.writeFailed flags.output e))
      | Except.ok _ =>
          ([Effect.mkdirAll flags.output,
            Effect.logInfo ("Writing signature to " ++ pathJoin flags.output
              (sigFileName flags.boardID flags.chipID flags.ecid)),
            Effect.writeFile (pathJoin flags.output
              (sigFileName flags.boardID flags.chipID flags.ecid))],
           Except.ok ())
  else
    match env.writeFile (sigFileName flags.boardID flags.chipID flags.ecid)
        sigData with
    | Except.error e =>
        ([Effect.logInfo ("Writing signature to " ++
            sigFileName flags.boardID flags.chipID flags.ecid),
          Effect.writeFile (sigFileName flags.boardID flags.chipID flags.ecid)],
         Except.error (Err.writeFailed flags.output e))
    | Except.ok _ =>
        ([Effect.logInfo ("Writing signature to " ++
            sigFileName flags.boardID flags.chipID flags.ecid),
          Effect.writeFile (sigFileName flags.boardID flags.chipID flags.ecid)],
         Except.ok ())

/-- Everything from `os.ReadFile(manifestPath)` on: read the manifest bytes,
parse them, personalize, then write the signature. -/
def afterManifest (env : Env) (flags : Flags) (manifestPath : String) :
    List Effect × Except Err Unit :=
  match env.readFile manifestPath with
  | Except.error e =>
      ([Effect.readFile manifestPath], Except.error (Err.readManifest e))
  | Except.ok manifestData =>
    match env.parseBuildManifest manifestData with
    | Except.error e =>
        ([Effect.readFile manifestPath], Except.error (Err.parseManifest e))
    | Except.ok buildManifest =>
      match env.personalize (buildPersonalConfig flags buildManifest) with
      | Except.error e =>
          ([Effect.readFile manifestPath,
            Effect.personalizeCall (buildPersonalConfig flags buildManifest)],
           Except.error (Err.personalizeFailed e))
      | Except.ok sigData =>
          (Effect.readFile manifestPath ::
             Effect.personalizeCall (buildPersonalConfig flags buildManifest) ::
             (writePhase env flags sigData).1,
           (writePhase env flags sigData).2)

/-- The remainder of the Xcode branch after a successful mount: log or
register the deferred release depending on `alreadyMounted`, then run the
common tail with the manifest path fixed under the mount point.  A release
registered here executes after the tail, on every exit path. -/
def mountedPhase (env : Env) (flags : Flags) (dmgPath mountPoint : String)
    (alreadyMounted : Bool) : List Effect × Except Err Unit :=
  if alreadyMounted then
    (Effect.logInfo (dmgPath ++ " already mounted") ::
       (afterManifest env flags
         (pathJoin mountPoint "Restore/BuildManifest.plist")).1,
     (afterManifest env flags
       (pathJoin mountPoint "Restore/BuildManifest.plist")).2)
  else
    ((afterManifest env flags
        (pathJoin mountPoint "Restore/BuildManifest.plist")).1 ++
       releaseMount env dmgPath mountPoint,
     (afterManifest env flags
       (pathJoin mountPoint "Restore/BuildManifest.plist")).2)

/-- The body of `idevImgSignCmd.RunE`: flag validation, then either the
Xcode branch (stat the DDI image, mount it, manifest under the mount point)
or the direct manifest-file branch, then the common read → parse →
personalize → write tail.  Returns the effect trace and the Go `error`. -/
def runE (env : Env) (flags : Flags) : List Effect × Except Err Unit :=
  if flags.xcode ≠ "" ∧ flags.manifest ≠ "" then
    ([], Except.error Err.both)
  else if flags.xcode = "" ∧ flags.manifest = "" then
    ([], Except.error Err.neither)
  else if flags.boardID = 0 ∨ flags.chipID = 0 ∨ flags.ecid = 0 ∨
      flags.nonce = "" then
    ([], Except.error Err.identity)
  else if flags.xcode ≠ "" then
    if env.statNotExist (pathJoin flags.xcode dmgRelPath) then
      ([Effect.stat (pathJoin flags.xcode dmgRelPath)],
       Except.error (Err.notFound flags.xcode))
    else
      match env.mountDMG (pathJoin flags.xcode dmgRelPath) with
      | Except.error e =>
          ([Effect.stat (pathJoin flags.xcode dmgRelPath),
            Effect.logInfo ("Mounting " ++ pathJoin flags.xcode dmgRelPath),
            Effect.mount (pathJoin flags.xcode dmgRelPath)],
           Except.error (Err.mountFailed e))
      | Except.ok mb =>
          (Effect.stat (pathJoin flags.xcode dmgRelPath) ::
             Effect.logInfo ("Mounting " ++ pathJoin flags.xcode dmgRelPath) ::
             Effect.mount (pathJoin flags.xcode dmgRelPath) ::
             (mountedPhase env flags (pathJoin flags.xcode dmgRelPath)
               mb.1 mb.2).1,
           (mountedPhase env flags (pathJoin flags.xcode dmgRelPath)
             mb.1 mb.2).2)
  else
    afterManifest env flags flags.manifest

/-- Is an effect an unmount call? -/
def isUnmount : Effect → Bool
  | Effect.unmountCall _ _ => true
  | _ => false

/-- Number of unmount calls in a trace. -/
def countUnmounts (tr : List Effect) : Nat := tr.countP isUnmount

/-- Does an effect respect the fixed 2-second inter-attempt delay (true for
every non-sleep effect, and for a sleep exactly when it sleeps 2 seconds)? -/
def sleepOk : Effect → Bool
  | Effect.sleep s => s == 2
  | _ => true

/-- Every sleep in the trace is the fixed 2-second delay. -/
def sleepsAll2 (tr : List Effect) : Bool := tr.all sleepOk

/-- Identity fields are all present (non-zero / non-empty). -/
def identityOK (flags : Flags) : Prop :=
  flags.boardID ≠ 0 ∧ flags.chipID ≠ 0 ∧ flags.ecid ≠ 0 ∧ flags.nonce ≠ ""

instance (flags : Flags) : Decidable (identityOK flags) := by
  unfold identityOK
  infer_instance

/-- The write phase performs no unmount call. -/
lemma countUnmounts_writePhase (env : Env) (flags : Flags) (sigData : List Nat) :
    countUnmounts (writePhase env flags sigData).1 = 0 := by
  unfold writePhase countUnmounts
  split
  · split
    · simp [List.countP_cons, isUnmount]
    · split <;> simp [List.countP_cons, isUnmount]
  · split <;> simp [List.countP_cons, isUnmount]

/-- The common tail (read → parse → personalize → write) performs no unmount
call. -/
lemma countUnmounts_afterManifest (env : Env) (flags : Flags) (p : String) :
    countUnmounts (afterManifest env flags p).1 = 0 := by
  unfold afterManifest
  split
  · simp [countUnmounts, List.countP_cons, isUnmount]
  · split
    · simp [countUnmounts, List.countP_cons, isUnmount]
    · split
      · simp [countUnmounts, List.countP_cons, isUnmount]
      · rename_i sd heq
        have h := countUnmounts_writePhase env flags sd
        simp only [countUnmounts, List.countP_cons] at h ⊢
        simp [isUnmount, h]

/-- The write phase performs no sleep. -/
lemma sleepsAll2_writePhase (env : Env) (flags : Flags) (sigData : List Nat) :
    sleepsAll2 (writePhase env flags sigData).1 = true := by
  unfold writePhase sleepsAll2
  split
  · split
    · simp [List.all_cons, sleepOk]
    · split <;> simp [List.all_cons, sleepOk]
  · split <;> simp [List.all_cons, sleepOk]

/-- The common tail performs no sleep. -/
lemma sleepsAll2_afterManifest (env : Env) (flags : Flags) (p : String) :
    sleepsAll2 (afterManifest env flags p).1 = true := by
  unfold afterManifest
  split
  · simp [sleepsAll2, sleepOk]
  · split
    · simp [sleepsAll2, sleepOk]
    · split
      · simp [sleepsAll2, sleepOk]
      · rename_i sd heq
        have h := sleepsAll2_writePhase env flags sd
        simp only [sleepsAll2, List.all_cons] at h ⊢
        simp [sleepOk, h]

/-- Bounded retry makes at most `n` unmount calls when each attempt makes at
most one. -/
lemma countUnmounts_Retry (d : Nat) (op : Nat → List Effect × Except String Unit)
    (hop : ∀ i, countUnmounts (op i).1 ≤ 1) :
    ∀ n i, countUnmounts (Retry n d op i).1 ≤ n := by
  intro n
  induction n with
  | zero => intro i; simp [Retry, countUnmounts]
  | succ n ih =>
    intro i
    rcases h : op i with ⟨tr, r⟩
    have htr : countUnmounts tr ≤ 1 := by
      have h0 := hop i
      rw [h] at h0
      exact h0
    cases r with
    | ok u =>
      rw [Retry, h]
      exact le_trans htr (by omega)
    | error e =>
      cases n with
      | zero =>
        rw [Retry, h]
        exact le_trans htr (by omega)
      | succ m =>
        have h2 := ih (i + 1)
        rw [Retry, h]
        simp only [countUnmounts, List.countP_append, List.countP_cons,
          isUnmount, Bool.false_eq_true, if_false, Nat.add_zero] at h2 htr ⊢
        exact le_trans (Nat.add_le_add htr h2) (by omega)

/-- Bounded retry makes at least one attempt (for a positive bound). -/
lemma countUnmounts_Retry_pos (d : Nat)
    (op : Nat → List Effect × Except String Unit)
    (hop : ∀ i, 1 ≤ countUnmounts (op i).1) :
    ∀ n i, 0 < n → 1 ≤ countUnmounts (Retry n d op i).1 := by
  intro n
  induction n with
  | zero => intro i h; omega
  | succ n ih =>
    intro i _
    rcases h : op i with ⟨tr, r⟩
    have htr : 1 ≤ countUnmounts tr := by
      have h0 := hop i
      rw [h] at h0
      exact h0
    cases r with
    | ok u =>
      rw [Retry, h]
      exact htr
    | error e =>
      cases n with
      | zero =>
        rw [Retry, h]
        exact htr
      | succ m =>
        rw [Retry, h]
        simp only [countUnmounts, List.countP_append, List.countP_cons,
          isUnmount, Bool.false_eq_true, if_false, Nat.add_zero] at htr ⊢
        exact le_trans htr (Nat.le_add_right _ _)

/-- Retry only ever sleeps for the configured delay, when each attempt does
not sleep at all. -/
lemma sleepsAll2_Retry (op : Nat → List Effect × Except String Unit)
    (hop : ∀ i, sleepsAll2 (op i).1 = true) :
    ∀ n i, sleepsAll2 (Retry n 2 op i).1 = true := by
  intro n
  induction n with
  | zero => intro i; simp [Retry, sleepsAll2]
  | succ n ih =>
    intro i
    rcases h : op i with ⟨tr, r⟩
    have htr : sleepsAll2 tr = true := by
      have h0 := hop i
      rw [h] at h0
      exact h0
    cases r with
    | ok u =>
      rw [Retry, h]
      exact htr
    | error e =>
      cases n with
      | zero =>
        rw [Retry, h]
        exact htr
      | succ m =>
        have h2 := ih (i + 1)
        rw [Retry, h]
        simp [sleepsAll2, List.all_append, List.all_cons, sleepOk] at htr h2 ⊢
        exact ⟨htr, h2⟩

/-- The release block makes at most 3 unmount calls. -/
lemma countUnmounts_releaseMount_le (env : Env) (d mp : String) :
    countUnmounts (releaseMount env d mp) ≤ 3 := by
  have h := countUnmounts_Retry 2 (unmountOnce env mp)
    (by intro i; simp [unmountOnce, countUnmounts, List.countP_cons, isUnmount]) 3 0
  unfold releaseMount
  rcases hr : Retry 3 2 (unmountOnce env mp) 0 with ⟨tr, r⟩
  rw [hr] at h
  cases r with
  | ok u =>
    simp only [countUnmounts, List.countP_cons, isUnmount, Bool.false_eq_true,
      if_false, Nat.add_zero] at h ⊢
    exact h
  | error e =>
    simp only [countUnmounts, List.countP_append, List.countP_cons,
      List.countP_nil, isUnmount, Bool.false_eq_true, if_false,
      Nat.add_zero] at h ⊢
    exact h

/-- The release block makes at least one unmount call. -/
lemma countUnmounts_releaseMount_pos (env : Env) (d mp : String) :
    1 ≤ countUnmounts (releaseMount env d mp) := by
  have h := countUnmounts_Retry_pos 2 (unmountOnce env mp)
    (by intro i; simp [unmountOnce, countUnmounts, List.countP_cons, isUnmount]) 3 0
    (by omega)
  unfold releaseMount
  rcases hr : Retry 3 2 (unmountOnce env mp) 0 with ⟨tr, r⟩
  rw [hr] at h
  cases r with
  | ok u =>
    simp only [countUnmounts, List.countP_cons, isUnmount, Bool.false_eq_true,
      if_false, Nat.add_zero] at h ⊢
    exact h
  | error e =>
    simp only [countUnmounts, List.countP_append, List.countP_cons,
      List.countP_nil, isUnmount, Bool.false_eq_true, if_false,
      Nat.add_zero] at h ⊢
    exact h

/-- Every sleep in the release block is the 2-second delay. -/
lemma sleepsAll2_releaseMount (env : Env) (d mp : String) :
    sleepsAll2 (releaseMount env d mp) = true := by
  have h := sleepsAll2_Retry (unmountOnce env mp)
    (by intro i; simp [unmountOnce, sleepsAll2, sleepOk]) 3 0
  unfold releaseMount
  rcases hr : Retry 3 2 (unmountOnce env mp) 0 with ⟨tr, r⟩
  rw [hr] at h
  cases r with
  | ok u =>
    simp only [sleepsAll2, List.all_cons, sleepOk, Bool.true_and] at h ⊢
    exact h
  | error e =>
    simp only [sleepsAll2, List.all_append, List.all_cons, List.all_nil,
      sleepOk, Bool.true_and, Bool.and_true] at h ⊢
    exact h

/-- The result of the mounted phase is the result of the common tail: the
release block affects only the trace. -/
lemma mountedPhase_snd (env : Env) (flags : Flags) (d mp : String) (b : Bool) :
    (mountedPhase env flags d mp b).2 =
      (afterManifest env flags (pathJoin mp "Restore/BuildManifest.plist")).2 := by
  cases b <;> rfl

/-- The mounted phase makes at most 3 unmount calls. -/
lemma countUnmounts_mountedPhase_le (env : Env) (flags : Flags) (d mp : String)
    (b : Bool) : countUnmounts (mountedPhase env flags d mp b).1 ≤ 3 := by
  have ha := countUnmounts_afterManifest env flags
    (pathJoin mp "Restore/BuildManifest.plist")
  have hr := countUnmounts_releaseMount_le env d mp
  cases b with
  | true =>
    show countUnmounts (Effect.logInfo (d ++ " already mounted") ::
      (afterManifest env flags (pathJoin mp "Restore/BuildManifest.plist")).1) ≤ 3
    simp only [countUnmounts, List.countP_cons, isUnmount, Bool.false_eq_true,
      if_false, Nat.add_zero] at ha ⊢
    rw [ha]
    exact Nat.zero_le 3
  | false =>
    show countUnmounts
      ((afterManifest env flags (pathJoin mp "Restore/BuildManifest.plist")).1 ++
        releaseMount env d mp) ≤ 3
    simp only [countUnmounts, List.countP_append] at ha hr ⊢
    rw [ha]
    simpa using hr

/-- The mounted phase sleeps only for the 2-second delay. -/
lemma sleepsAll2_mountedPhase (env : Env) (flags : Flags) (d mp : String)
    (b : Bool) : sleepsAll2 (mountedPhase env flags d mp b).1 = true := by
  have ha := sleepsAll2_afterManifest env flags
    (pathJoin mp "Restore/BuildManifest.plist")
  have hr := sleepsAll2_releaseMount env d mp
  cases b with
  | true =>
    show sleepsAll2 (Effect.logInfo (d ++ " already mounted") ::
      (afterManifest env flags (pathJoin mp "Restore/BuildManifest.plist")).1) = true
    simp only [sleepsAll2, List.all_cons, sleepOk, Bool.true_and] at ha ⊢
    exact ha
  | false =>
    show sleepsAll2
      ((afterManifest env flags (pathJoin mp "Restore/BuildManifest.plist")).1 ++
        releaseMount env d mp) = true
    simp only [sleepsAll2, List.all_append] at ha hr ⊢
    rw [ha, hr]
    rfl

/-- Any invocation makes at most 3 unmount calls in total. -/
lemma countUnmounts_runE_le (env : Env) (flags : Flags) :
    countUnmounts (runE env flags).1 ≤ 3 := by
  unfold runE
  split
  · simp [countUnmounts]
  split
  · simp [countUnmounts]
  split
  · simp [countUnmounts]
  split
  · split
    · simp [countUnmounts, List.countP_cons, isUnmount]
    split
    · simp [countUnmounts, List.countP_cons, isUnmount]
    · rename_i mb heq
      have h := countUnmounts_mountedPhase_le env flags
        (pathJoin flags.xcode dmgRelPath) mb.1 mb.2
      simp only [countUnmounts, List.countP_cons, isUnmount, Bool.false_eq_true,
        if_false, Nat.add_zero] at h ⊢
      exact h
  · have h := countUnmounts_afterManifest env flags flags.manifest
    simp only [countUnmounts] at h ⊢
    rw [h]
    exact Nat.zero_le 3

/-- Any invocation sleeps only for the fixed 2-second inter-attempt delay. -/
lemma sleepsAll2_runE (env : Env) (flags : Flags) :
    sleepsAll2 (runE env flags).1 = true := by
  unfold runE
  split
  · rfl
  split
  · rfl
  split
  · rfl
  split
  · split
    · rfl
    split
    · rfl
    · rename_i mb heq
      have h := sleepsAll2_mountedPhase env flags
        (pathJoin flags.xcode dmgRelPath) mb.1 mb.2
      simp only [sleepsAll2, List.all_cons, sleepOk, Bool.true_and] at h ⊢
      exact h
  · exact sleepsAll2_afterManifest env flags flags.manifest

/-- Replacing the unmount oracle leaves every other collaborator's answers
unchanged. -/
lemma upd_statNotExist (env : Env) (u : String → Bool → Nat → Except String Unit) :
    ({env with unmount := u} : Env).statNotExist = env.statNotExist := rfl

/-- Replacing the unmount oracle leaves the mount oracle unchanged. -/
lemma upd_mountDMG (env : Env) (u : String → Bool → Nat → Except String Unit) :
    ({env with unmount := u} : Env).mountDMG = env.mountDMG := rfl

/-- The common tail never consults the unmount oracle. -/
lemma afterManifest_unmount_irrel (env : Env)
    (u : String → Bool → Nat → Except String Unit) (flags : Flags) (p : String) :
    afterManifest {env with unmount := u} flags p = afterManifest env flags p := rfl

/-- The operation's result is unchanged under any replacement of the unmount
oracle: unmount outcomes influence only the effect trace. -/
lemma runE_snd_unmount_irrel (env : Env)
    (u v : String → Bool → Nat → Except String Unit) (flags : Flags) :
    (runE {env with unmount := u} flags).2 =
      (runE {env with unmount := v} flags).2 := by
  unfold runE
  by_cases h1 : flags.xcode ≠ "" ∧ flags.manifest ≠ ""
  · simp only [if_pos h1]
  simp only [if_neg h1]
  by_cases h2 : flags.xcode = "" ∧ flags.manifest = ""
  · simp only [if_pos h2]
  simp only [if_neg h2]
  by_cases h3 : flags.boardID = 0 ∨ flags.chipID = 0 ∨ flags.ecid = 0 ∨
    flags.nonce = ""
  · simp only [if_pos h3]
  simp only [if_neg h3]
  by_cases h4 : flags.xcode ≠ ""
  · simp only [if_pos h4, upd_statNotExist, upd_mountDMG]
    cases hs : env.statNotExist (pathJoin flags.xcode dmgRelPath) with
    | true => rfl
    | false =>
      simp only [Bool.false_eq_true, if_false]
      cases hm : env.mountDMG (pathJoin flags.xcode dmgRelPath) with
      | error e => rfl
      | ok mb =>
        show (mountedPhase {env with unmount := u} flags
            (pathJoin flags.xcode dmgRelPath) mb.1 mb.2).2 =
          (mountedPhase {env with unmount := v} flags
            (pathJoin flags.xcode dmgRelPath) mb.1 mb.2).2
        rw [mountedPhase_snd, mountedPhase_snd, afterManifest_unmount_irrel env u,
          afterManifest_unmount_irrel env v]
  · simp only [if_neg h4]
    rw [afterManifest_unmount_irrel env u, afterManifest_unmount_irrel env v]

/-- The write phase never produces the missing-source validation error. -/
lemma writePhase_snd_ne_neither (env : Env) (flags : Flags) (sig : List Nat) :
    (writePhase env flags sig).2 ≠ Except.error Err.neither := by
  unfold writePhase
  split
  · split
    · simp
    · split <;> simp
  · split <;> simp

/-- The common tail never produces the missing-source validation error. -/
lemma afterManifest_snd_ne_neither (env : Env) (flags : Flags) (p : String) :
    (afterManifest env flags p).2 ≠ Except.error Err.neither := by
  unfold afterManifest
  split
  · simp
  · split
    · simp
    · split
      · simp
      · rename_i sd heq
        exact writePhase_snd_ne_neither env flags sd

/-- The missing-source error is returned exactly when both manifest sources
are empty. -/
lemma runE_neither_iff (env : Env) (flags : Flags) :
    (runE env flags).2 = Except.error Err.neither ↔
      flags.xcode = "" ∧ flags.manifest = "" := by
  constructor
  · intro h
    by_cases h2 : flags.xcode = "" ∧ flags.manifest = ""
    · exact h2
    exfalso
    unfold runE at h
    by_cases h1 : flags.xcode ≠ "" ∧ flags.manifest ≠ ""
    · rw [if_pos h1] at h
      simp at h
    rw [if_neg h1, if_neg h2] at h
    by_cases h3 : flags.boardID = 0 ∨ flags.chipID = 0 ∨ flags.ecid = 0 ∨
      flags.nonce = ""
    · rw [if_pos h3] at h
      simp at h
    rw [if_neg h3] at h
    by_cases h4 : flags.xcode ≠ ""
    · rw [if_pos h4] at h
      cases hs : env.statNotExist (pathJoin flags.xcode dmgRelPath) with
      | true =>
        rw [hs, if_pos rfl] at h
        simp at h
      | false =>
        rw [hs] at h
        simp only [Bool.false_eq_true, if_false] at h
        cases hm : env.mountDMG (pathJoin flags.xcode dmgRelPath) with
        | error e =>
          rw [hm] at h
          simp at h
        | ok mb =>
          rw [hm] at h
          apply afterManifest_snd_ne_neither env flags
            (pathJoin mb.1 "Restore/BuildManifest.plist")
          rw [← mountedPhase_snd env flags (pathJoin flags.xcode dmgRelPath)
            mb.1 mb.2]
          exact h
    · rw [if_neg h4] at h
      exact afterManifest_snd_ne_neither env flags flags.manifest h
  · rintro ⟨hx, hm⟩
    unfold runE
    rw [if_neg (by simp [hx]), if_pos ⟨hx, hm⟩]

/-- An oracle under which every collaborator succeeds. -/
def okEnv : Env :=
  { statNotExist := fun _ => false
    mountDMG := fun _ => Except.ok ("/tmp/ddi-mount", false)
    unmount := fun _ _ _ => Except.ok ()
    readFile := fun _ => Except.ok [1, 2, 3]
    parseBuildManifest := fun _ => Except.ok { token := 7 }
    personalize := fun _ => Except.ok [4, 5, 6]
    mkdirAll := fun _ => Except.ok ()
    writeFile := fun _ _ => Except.ok () }

/-- Valid identity fields on the Xcode branch (all other flags default). -/
def xcodeFlags : Flags :=
  { defaultFlags with boardID := 100, chipID := 200, ecid := 300, nonce := "cafe" }

/-- Valid identity fields on the manifest-file branch, with an output folder. -/
def manifestFlags : Flags :=
  { xcodeFlags with
    xcode := ""
    manifest := "/tmp/BuildManifest.plist"
    output := "out" }

/-- Both manifest sources set (the `--xcode` default plus `--manifest`). -/
def bothFlags : Flags :=
  { defaultFlags with manifest := "/tmp/BuildManifest.plist" }

/-- Oracle whose manifest read fails. -/
def readFailEnv : Env :=
  { okEnv with readFile := fun _ => Except.error "no such file or directory" }

/-- Oracle reporting the disk image as already mounted. -/
def alreadyMountedEnv : Env :=
  { okEnv with mountDMG := fun _ => Except.ok ("/tmp/ddi-mount", true) }

/-- Oracle whose stat reports the disk image missing. -/
def statFailEnv : Env :=
  { okEnv with statNotExist := fun _ => true }

/-- Oracle whose signature write fails. -/
def writeFailEnv : Env :=
  { okEnv with writeFile := fun _ _ => Except.error "disk full" }

/-- C1: on the Xcode branch, when this invocation acquired the mount
(`alreadyMounted` is false) and a later stage (manifest read, parse,
personalize, or write) fails, the release block still executes, exactly once
(its trace is appended once, and no unmount call occurs anywhere else in the
trace), before the operation returns that stage's error. -/
theorem release_runs_exactly_once_on_failure (env : Env) (flags : Flags)
    (mp : String) (e : Err)
    (hx : flags.xcode ≠ "") (hm : flags.manifest = "")
    (hid : identityOK flags)
    (hstat : env.statNotExist (pathJoin flags.xcode dmgRelPath) = false)
    (hmount : env.mountDMG (pathJoin flags.xcode dmgRelPath) =
      Except.ok (mp, false))
    (hfail : (afterManifest env flags
      (pathJoin mp "Restore/BuildManifest.plist")).2 = Except.error e) :
    runE env flags =
      (Effect.stat (pathJoin flags.xcode dmgRelPath) ::
        Effect.logInfo ("Mounting " ++ pathJoin flags.xcode dmgRelPath) ::
        Effect.mount (pathJoin flags.xcode dmgRelPath) ::
        ((afterManifest env flags
            (pathJoin mp "Restore/BuildManifest.plist")).1 ++
          releaseMount env (pathJoin flags.xcode dmgRelPath) mp),
       Except.error e) ∧
    countUnmounts (afterManifest env flags
      (pathJoin mp "Restore/BuildManifest.plist")).1 = 0 ∧
    1 ≤ countUnmounts (releaseMount env (pathJoin flags.xcode dmgRelPath) mp) := by
  obtain ⟨hb, hc, he, hn⟩ := hid
  have h1 : ¬(flags.xcode ≠ "" ∧ flags.manifest ≠ "") := by simp [hm]
  have h2 : ¬(flags.xcode = "" ∧ flags.manifest = "") := by simp [hx]
  have h3 : ¬(flags.boardID = 0 ∨ flags.chipID = 0 ∨ flags.ecid = 0 ∨
      flags.nonce = "") := by simp [hb, hc, he, hn]
  refine ⟨?_, countUnmounts_afterManifest env flags _,
    countUnmounts_releaseMount_pos env _ mp⟩
  unfold runE
  rw [if_neg h1, if_neg h2, if_neg h3, if_pos hx, hstat]
  simp only [Bool.false_eq_true, if_false]
  rw [hmount]
  simp [mountedPhase, hfail]

/-- C1 witness: a concrete invocation whose manifest read fails after this
invocation mounted the image. -/
theorem release_runs_exactly_once_on_failure_witness :
    runE readFailEnv xcodeFlags =
      (Effect.stat (pathJoin xcodeFlags.xcode dmgRelPath) ::
        Effect.logInfo ("Mounting " ++ pathJoin xcodeFlags.xcode dmgRelPath) ::
        Effect.mount (pathJoin xcodeFlags.xcode dmgRelPath) ::
        ((afterManifest readFailEnv xcodeFlags
            (pathJoin "/tmp/ddi-mount" "Restore/BuildManifest.plist")).1 ++
          releaseMount readFailEnv (pathJoin xcodeFlags.xcode dmgRelPath)
            "/tmp/ddi-mount"),
       Except.error (Err.readManifest "no such file or directory")) ∧
    countUnmounts (afterManifest readFailEnv xcodeFlags
      (pathJoin "/tmp/ddi-mount" "Restore/BuildManifest.plist")).1 = 0 ∧
    1 ≤ countUnmounts (releaseMount readFailEnv
      (pathJoin xcodeFlags.xcode dmgRelPath) "/tmp/ddi-mount") :=
  release_runs_exactly_once_on_failure readFailEnv xcodeFlags "/tmp/ddi-mount"
    (Err.readManifest "no such file or directory")
    (by decide) rfl (by decide) rfl rfl rfl

/-- C2: when the mount oracle reports the disk image as already mounted
before this invocation, the invocation performs no unmount call at all. -/
theorem no_unmount_when_already_mounted (env : Env) (flags : Flags)
    (mp : String)
    (h : env.mountDMG (pathJoin flags.xcode dmgRelPath) =
      Except.ok (mp, true)) :
    countUnmounts (runE env flags).1 = 0 := by
  unfold runE
  split
  · simp [countUnmounts]
  split
  · simp [countUnmounts]
  split
  · simp [countUnmounts]
  split
  · split
    · simp [countUnmounts, List.countP_cons, isUnmount]
    split
    · simp [countUnmounts, List.countP_cons, isUnmount]
    · rename_i mb heq
      have hmb : mb = (mp, true) := by
        rw [heq] at h
        exact Except.ok.inj h
      subst hmb
      have h0 := countUnmounts_afterManifest env flags
        (pathJoin mp "Restore/BuildManifest.plist")
      simp only [countUnmounts, List.countP_cons, isUnmount, Bool.false_eq_true,
        if_false, Nat.add_zero] at h0 ⊢
      simpa [mountedPhase, List.countP_cons, isUnmount] using h0
  · exact countUnmounts_afterManifest env flags flags.manifest

/-- C2 witness: a concrete invocation against an oracle that reports the
image as already mounted. -/
theorem no_unmount_when_already_mounted_witness :
    countUnmounts (runE alreadyMountedEnv xcodeFlags).1 = 0 :=
  no_unmount_when_already_mounted alreadyMountedEnv xcodeFlags
    "/tmp/ddi-mount" rfl

/-- C3: every invocation makes at most 3 unmount calls, every sleep in its
trace is the fixed 2-second inter-attempt delay, and the operation's result
is unchanged under any replacement of the unmount oracle (so unmount
failures are never returned to the caller). -/
theorem unmount_bounded_retry_result_unchanged (env : Env) (flags : Flags)
    (u v : String → Bool → Nat → Except String Unit) :
    countUnmounts (runE env flags).1 ≤ 3 ∧
    sleepsAll2 (runE env flags).1 = true ∧
    (runE {env with unmount := u} flags).2 =
      (runE {env with unmount := v} flags).2 :=
  ⟨countUnmounts_runE_le env flags, sleepsAll2_runE env flags,
   runE_snd_unmount_irrel env u v flags⟩

/-- C4: when both manifest sources are set, or both are empty, the operation
fails with the corresponding configuration error and an empty effect trace
(no stat, mount, read, signing call, or write). -/
theorem misconfigured_sources_fail_before_effects (env : Env) (flags : Flags)
    (h : (flags.xcode ≠ "" ∧ flags.manifest ≠ "") ∨
      (flags.xcode = "" ∧ flags.manifest = "")) :
    runE env flags = ([], Except.error Err.both) ∨
      runE env flags = ([], Except.error Err.neither) := by
  rcases h with h | h
  · left
    unfold runE
    rw [if_pos h]
  · right
    unfold runE
    rw [if_neg (by simp [h.1]), if_pos h]

/-- C4 witness: the default `--xcode` plus an explicit `--manifest`. -/
theorem misconfigured_sources_fail_before_effects_witness :
    runE okEnv bothFlags = ([], Except.error Err.both) ∨
      runE okEnv bothFlags = ([], Except.error Err.neither) :=
  misconfigured_sources_fail_before_effects okEnv bothFlags
    (Or.inl (by decide))

/-- C5 (amended): when exactly one manifest source is set and any identity
field is missing, the operation fails with the configuration error that
names the required flags, before any side effect. -/
theorem missing_identity_fails_fast (env : Env) (flags : Flags)
    (hsrc : (flags.xcode ≠ "" ∧ flags.manifest = "") ∨
      (flags.xcode = "" ∧ flags.manifest ≠ ""))
    (hid : flags.boardID = 0 ∨ flags.chipID = 0 ∨ flags.ecid = 0 ∨
      flags.nonce = "") :
    runE env flags = ([], Except.error Err.identity) ∧
      Err.identity.message =
        "must specify --board-id, --chip-id, --ecid AND --nonce" := by
  refine ⟨?_, rfl⟩
  unfold runE
  rcases hsrc with ⟨hx, hm⟩ | ⟨hx, hm⟩
  · rw [if_neg (by simp [hm]), if_neg (by simp [hx]), if_pos hid]
  · rw [if_neg (by simp [hx]), if_neg (by simp [hm]), if_pos hid]

/-- C5 witness: the default flags leave all identity fields unset while the
default `--xcode` supplies a manifest source. -/
theorem missing_identity_fails_fast_witness :
    runE okEnv defaultFlags = ([], Except.error Err.identity) ∧
      Err.identity.message =
        "must specify --board-id, --chip-id, --ecid AND --nonce" :=
  missing_identity_fails_fast okEnv defaultFlags
    (Or.inl (by decide)) (Or.inl rfl)

/-- C5 counterexample: with both sources set and `boardID = 0`, the
operation fails with the mutual-exclusivity error, whose message does not
name the required identity flags — so, as stated over all inputs, the error
is not always the one naming the required flags. -/
theorem missing_identity_counterexample :
    bothFlags.boardID = 0 ∧
    runE okEnv bothFlags = ([], Except.error Err.both) ∧
    Err.both ≠ Err.identity ∧
    Err.both.message = "cannot specify both --xcode and --manifest" := by
  refine ⟨rfl, ?_, by decide, rfl⟩
  unfold runE
  rw [if_pos (by decide)]

/-- When an output folder is set and its creation succeeds, the write phase
creates the folder and writes the signature file nested under it (the write
effect is in its trace whether or not the write itself succeeds). -/
lemma writePhase_effects (env : Env) (flags : Flags) (sig : List Nat)
    (ho : flags.output ≠ "")
    (hmk : env.mkdirAll flags.output = Except.ok ()) :
    Effect.mkdirAll flags.output ∈ (writePhase env flags sig).1 ∧
    Effect.writeFile (pathJoin flags.output
      (sigFileName flags.boardID flags.chipID flags.ecid)) ∈
        (writePhase env flags sig).1 := by
  unfold writePhase
  rw [if_pos ho, hmk]
  cases hw : env.writeFile (pathJoin flags.output
      (sigFileName flags.boardID flags.chipID flags.ecid)) sig <;>
    simp

/-- C6: the output filename is exactly the decimal renderings of boardID,
chipID and ecid joined with dots followed by ".personalized.signature"
(concretely 100, 200, 300 give "100.200.300.personalized.signature"), and
when an output folder is specified the folder is created (recursively, as
`os.MkdirAll` does) and the file is nested under it. -/
theorem output_filename_and_nesting (env : Env) (flags : Flags)
    (d : List Nat) (bm : BuildManifest) (sig : List Nat)
    (hx : flags.xcode = "") (hm : flags.manifest ≠ "")
    (hid : flags.boardID = 0 ∨ flags.chipID = 0 ∨ flags.ecid = 0 ∨
      flags.nonce = "" → False)
    (ho : flags.output ≠ "")
    (hread : env.readFile flags.manifest = Except.ok d)
    (hparse : env.parseBuildManifest d = Except.ok bm)
    (hpers : env.personalize (buildPersonalConfig flags bm) = Except.ok sig)
    (hmk : env.mkdirAll flags.output = Except.ok ()) :
    sigFileName flags.boardID flags.chipID flags.ecid =
      Nat.repr flags.boardID ++ "." ++ Nat.repr flags.chipID ++ "." ++
        Nat.repr flags.ecid ++ "." ++ "personalized.signature" ∧
    sigFileName 100 200 300 = "100.200.300.personalized.signature" ∧
    Effect.mkdirAll flags.output ∈ (runE env flags).1 ∧
    Effect.writeFile (pathJoin flags.output
      (sigFileName flags.boardID flags.chipID flags.ecid)) ∈
        (runE env flags).1 := by
  have hrun : runE env flags = afterManifest env flags flags.manifest := by
    unfold runE
    rw [if_neg (by simp [hx]), if_neg (by simp [hm]), if_neg hid,
      if_neg (by simp [hx])]
  have hafter : (afterManifest env flags flags.manifest).1 =
      Effect.readFile flags.manifest ::
        Effect.personalizeCall (buildPersonalConfig flags bm) ::
        (writePhase env flags sig).1 := by
    unfold afterManifest
    simp only [hread, hparse, hpers]
  obtain ⟨hmem1, hmem2⟩ := writePhase_effects env flags sig ho hmk
  refine ⟨rfl, by decide, ?_, ?_⟩
  · rw [hrun, hafter]
    exact List.mem_cons_of_mem _ (List.mem_cons_of_mem _ hmem1)
  · rw [hrun, hafter]
    exact List.mem_cons_of_mem _ (List.mem_cons_of_mem _ hmem2)

/-- C6 witness: a successful manifest-branch run with `--output out` and
identity 100/200/300. -/
theorem output_filename_and_nesting_witness :
    sigFileName manifestFlags.boardID manifestFlags.chipID manifestFlags.ecid =
      Nat.repr manifestFlags.boardID ++ "." ++
        Nat.repr manifestFlags.chipID ++ "." ++
        Nat.repr manifestFlags.ecid ++ "." ++ "personalized.signature" ∧
    sigFileName 100 200 300 = "100.200.300.personalized.signature" ∧
    Effect.mkdirAll manifestFlags.output ∈ (runE okEnv manifestFlags).1 ∧
    Effect.writeFile (pathJoin manifestFlags.output
      (sigFileName manifestFlags.boardID manifestFlags.chipID
        manifestFlags.ecid)) ∈ (runE okEnv manifestFlags).1 :=
  output_filename_and_nesting okEnv manifestFlags [1, 2, 3] { token := 7 }
    [4, 5, 6] rfl (by decide) (by decide) (by decide) rfl rfl rfl rfl

/-- C7: the personalization request's identity map holds exactly the three
keys BoardId, ChipID and UniqueChipID, each carried as its unsigned-integer
value (`PValue.num`, not a string); `buildPersonalConfig` is total, so
building the request has no failure path. -/
theorem request_identity_map (flags : Flags) (bm : BuildManifest) :
    (buildPersonalConfig flags bm).personlID =
      [("BoardId", PValue.num flags.boardID),
       ("ChipID", PValue.num flags.chipID),
       ("UniqueChipID", PValue.num flags.ecid)] ∧
    (buildPersonalConfig flags bm).personlID.length = 3 :=
  ⟨rfl, rfl⟩

/-- The manifest read is always attempted: its effect heads the tail's
trace. -/
lemma readFile_mem_afterManifest (env : Env) (flags : Flags) (p : String) :
    Effect.readFile p ∈ (afterManifest env flags p).1 := by
  unfold afterManifest
  split
  · simp
  · split
    · simp
    · split
      · simp
      · simp

/-- The mounted phase reads the manifest under the mount point. -/
lemma readFile_mem_mountedPhase (env : Env) (flags : Flags) (d mp : String)
    (b : Bool) :
    Effect.readFile (pathJoin mp "Restore/BuildManifest.plist") ∈
      (mountedPhase env flags d mp b).1 := by
  have h := readFile_mem_afterManifest env flags
    (pathJoin mp "Restore/BuildManifest.plist")
  cases b with
  | true => exact List.mem_cons_of_mem _ h
  | false => exact List.mem_append_left _ h

/-- C8: on the Xcode branch, if the disk image at the fixed relative path
under the Xcode root is absent, the operation fails with the not-found error
(whose message tells the user to install a new toolchain) after only the
stat — no mount is attempted; otherwise, once mounted, the manifest is read
at the fixed relative path "Restore/BuildManifest.plist" under the mount
point and the result is that of the common tail on that path. -/
theorem xcode_branch_dmg_probe_and_manifest_path (env : Env) (flags : Flags)
    (hx : flags.xcode ≠ "") (hm : flags.manifest = "")
    (hid : flags.boardID = 0 ∨ flags.chipID = 0 ∨ flags.ecid = 0 ∨
      flags.nonce = "" → False) :
    (Err.notFound flags.xcode).message =
      "failed to find iOS_DDI.dmg in " ++ squote ++ flags.xcode ++ squote ++
        " (install NEW XCode.app or Xcode-beta.app)" ∧
    (env.statNotExist (pathJoin flags.xcode dmgRelPath) = true →
      runE env flags = ([Effect.stat (pathJoin flags.xcode dmgRelPath)],
        Except.error (Err.notFound flags.xcode))) ∧
    (∀ mp b, env.statNotExist (pathJoin flags.xcode dmgRelPath) = false →
      env.mountDMG (pathJoin flags.xcode dmgRelPath) = Except.ok (mp, b) →
      Effect.readFile (pathJoin mp "Restore/BuildManifest.plist") ∈
          (runE env flags).1 ∧
        (runE env flags).2 = (afterManifest env flags
          (pathJoin mp "Restore/BuildManifest.plist")).2) := by
  have h1 : ¬(flags.xcode ≠ "" ∧ flags.manifest ≠ "") := by simp [hm]
  have h2 : ¬(flags.xcode = "" ∧ flags.manifest = "") := by simp [hx]
  refine ⟨rfl, ?_, ?_⟩
  · intro hstat
    unfold runE
    rw [if_neg h1, if_neg h2, if_neg hid, if_pos hx, hstat, if_pos rfl]
  · intro mp b hstat hmount
    have hrun : runE env flags =
        (Effect.stat (pathJoin flags.xcode dmgRelPath) ::
          Effect.logInfo ("Mounting " ++ pathJoin flags.xcode dmgRelPath) ::
          Effect.mount (pathJoin flags.xcode dmgRelPath) ::
          (mountedPhase env flags (pathJoin flags.xcode dmgRelPath) mp b).1,
         (mountedPhase env flags (pathJoin flags.xcode dmgRelPath) mp b).2) := by
      unfold runE
      rw [if_neg h1, if_neg h2, if_neg hid, if_pos hx, hstat]
      simp only [Bool.false_eq_true, if_false]
      rw [hmount]
    rw [hrun]
    refine ⟨?_, mountedPhase_snd env flags _ mp b⟩
    exact List.mem_cons_of_mem _ (List.mem_cons_of_mem _
      (List.mem_cons_of_mem _ (readFile_mem_mountedPhase env flags _ mp b)))

/-- C8 witness: a missing image yields the not-found failure after only a
stat; a mounted image reads the manifest under the mount point. -/
theorem xcode_branch_dmg_probe_and_manifest_path_witness :
    runE statFailEnv xcodeFlags =
      ([Effect.stat (pathJoin xcodeFlags.xcode dmgRelPath)],
       Except.error (Err.notFound xcodeFlags.xcode)) ∧
    (Effect.readFile (pathJoin "/tmp/ddi-mount" "Restore/BuildManifest.plist") ∈
        (runE okEnv xcodeFlags).1 ∧
      (runE okEnv xcodeFlags).2 = (afterManifest okEnv xcodeFlags
        (pathJoin "/tmp/ddi-mount" "Restore/BuildManifest.plist")).2) :=
  ⟨(xcode_branch_dmg_probe_and_manifest_path statFailEnv xcodeFlags
      (by decide) rfl (by decide)).2.1 rfl,
   (xcode_branch_dmg_probe_and_manifest_path okEnv xcodeFlags
      (by decide) rfl (by decide)).2.2 "/tmp/ddi-mount" false rfl rfl⟩

/-- C9 (code bug): on a failed signature write the attempted file path is
`out/100.200.300.personalized.signature`, but the returned error's message
names only the output folder variable — `"failed to write signature to out:
disk full"` — not the attempted file path (and it would name the empty
string when no output folder was given).  The folder-creation error does
name the output folder, as the claim says. -/
theorem write_error_names_output_not_path :
    Effect.writeFile (pathJoin "out" (sigFileName 100 200 300)) ∈
      (runE writeFailEnv manifestFlags).1 ∧
    (runE writeFailEnv manifestFlags).2 =
      Except.error (Err.writeFailed "out" "disk full") ∧
    (Err.writeFailed "out" "disk full").message =
      "failed to write signature to out: disk full" ∧
    (Err.mkdirFailed "out" "denied").message =
      "failed to create output folder " ++ squote ++ "out" ++ squote ++
        ": denied" ∧
    pathJoin "out" (sigFileName 100 200 300) =
      "out/100.200.300.personalized.signature" := by
  exact ⟨by decide, rfl, rfl, rfl, by decide⟩

/-- C10: `--xcode` defaults to `/Applications/Xcode.app`, so an invocation
setting neither source does not hit the missing-source error — the
missing-source error is returned exactly when the xcode flag is the empty
string and the manifest flag is empty too — and a default-xcode invocation
proceeds on the Xcode branch (it stats the disk image under the default
path). -/
theorem default_xcode_prevents_missing_source_error (env : Env)
    (flags : Flags) :
    defaultFlags.xcode = "/Applications/Xcode.app" ∧
    ((runE env flags).2 = Except.error Err.neither ↔
      flags.xcode = "" ∧ flags.manifest = "") ∧
    Effect.stat (pathJoin defaultFlags.xcode dmgRelPath) ∈
      (runE okEnv xcodeFlags).1 :=
  ⟨rfl, runE_neither_iff env flags, by decide⟩

/-- C10 witness: the characterization applied at a concrete oracle and
concrete flags. -/
theorem default_xcode_prevents_missing_source_error_witness :
    defaultFlags.xcode = "/Applications/Xcode.app" ∧
    ((runE okEnv defaultFlags).2 = Except.error Err.neither ↔
      defaultFlags.xcode = "" ∧ defaultFlags.manifest = "") ∧
    Effect.stat (pathJoin defaultFlags.xcode dmgRelPath) ∈
      (runE okEnv xcodeFlags).1 :=
  default_xcode_prevents_missing_source_error okEnv defaultFlags

/-- C3 witness: the bounds at a concrete oracle whose unmount keeps failing,
compared against one whose unmount succeeds. -/
theorem unmount_bounded_retry_result_unchanged_witness :
    countUnmounts (runE okEnv xcodeFlags).1 ≤ 3 ∧
    sleepsAll2 (runE okEnv xcodeFlags).1 = true ∧
    (runE {okEnv with
        unmount := fun _ _ _ => Except.error "resource busy"} xcodeFlags).2 =
      (runE {okEnv with unmount := fun _ _ _ => Except.ok ()} xcodeFlags).2 :=
  unmount_bounded_retry_result_unchanged okEnv xcodeFlags
    (fun _ _ _ => Except.error "resource busy") (fun _ _ _ => Except.ok ())

end ImgSign
